import Mathlib

/-!
Shallow embedding of the tool-augmented chat orchestration engine of
matrx2000/assistant_studio (src/main.py and the assistant_tools package),
together with theorems settling the frozen specification claims.

The program dispatches the tool table defined in src/main.py
(FUNCTIONS / TOOLS); the assistant_tools package is a duplicated,
unimported variant, so src/main.py is the authoritative source here.
Network and filesystem effects are modelled by explicit oracles; Qt
signal emissions are modelled as an explicit event trace; the
cooperative abort flag is modelled by a monotone schedule sampled at
exactly the flag-read sites of the source.
-/

namespace AssistantStudio

/-- JSON values as returned by the tool implementations (the Python code
serialises these with json.dumps; key order is insertion order, which the
object constructor preserves). -/
inductive Json where
  | str (s : String)
  | num (n : Int)
  | bool (b : Bool)
  | null
  | arrs (elems : List String)
  | obj (fields : List (String × Json))
deriving Repr

/-- Decoded keyword arguments of a tool call (outcome of json.loads on the
model-supplied argument text). -/
abbrev Args := List (String × Json)

/- ---------------------------------------------------------------------
Python string helpers used by the tools, modelled structurally on the
character list so that everything reduces in the kernel.
--------------------------------------------------------------------- -/

/-- str.split of Python specialised to the single separator used by the
code (os.sep = slash on POSIX): keeps empty pieces, and the empty string
splits to one empty piece. -/
def splitSlashAux : List Char → List (List Char)
  | [] => [[]]
  | c :: rest =>
    match splitSlashAux rest with
    | [] => [[]]
    | cur :: more => if c = '/' then [] :: cur :: more else (c :: cur) :: more

/-- Python path.split of the slash character, on strings. -/
def pySplitSlash (s : String) : List String :=
  (splitSlashAux s.toList).map String.mk

/-- sep.join of Python for the slash separator. -/
def joinSlash : List String → String
  | [] => ""
  | [s] => s
  | s :: rest => s ++ "/" ++ joinSlash rest

/-- os.path.isabs on POSIX: the path starts with a slash. -/
def isabs (p : String) : Bool :=
  match p.toList with
  | '/' :: _ => true
  | _ => false

/-- The component-processing loop of CPython posixpath.normpath: skip
empty and dot components; a dot-dot component is appended when the path
is relative and nothing has been kept yet, or when the last kept
component is itself a dot-dot; otherwise it pops the last kept component
when one exists (at the root of an absolute path it is dropped).
The accumulator holds the kept components in reverse. -/
def normComps (initialSlashes : Bool) : List String → List String → List String
  | [], acc => acc.reverse
  | c :: rest, acc =>
    if c = "" ∨ c = "." then normComps initialSlashes rest acc
    else if c ≠ ".." ∨ (¬ initialSlashes ∧ acc = []) ∨ acc.head? = some ".." then
      normComps initialSlashes rest (c :: acc)
    else
      match acc with
      | [] => normComps initialSlashes rest []
      | _ :: acctail => normComps initialSlashes rest acctail

/-- os.path.normpath on POSIX (CPython posixpath.normpath): empty path
becomes a dot, one or two leading slashes are preserved (three or more
collapse to one), components are normalised by normComps, and an empty
result becomes a dot. -/
def normpath (p : String) : String :=
  if p = "" then "."
  else
    let slashes : Nat :=
      if isabs p then
        (if p.startsWith "//" ∧ ¬ p.startsWith "///" then 2 else 1)
      else 0
    let comps := normComps (slashes > 0) (pySplitSlash p) []
    let joined := String.join (List.replicate slashes "/") ++ joinSlash comps
    if joined = "" then "." else joined

/-- os.path.dirname for already-normalised relative paths: everything
before the last slash, empty when there is none. -/
def dirname (p : String) : String :=
  match (pySplitSlash p).dropLast with
  | [] => ""
  | parts => joinSlash parts

/-- Python truncation data[:n] / f.read(n), counted in characters. -/
def pyTake (n : Nat) (s : String) : String :=
  String.mk (s.toList.take n)

/-- The sandbox guard shared by read_file and write_file in src/main.py:
reject absolute paths and any dot-dot component surviving in the
normalised path (norm.split(os.sep)). -/
def unsafeGuard (path : String) : Bool :=
  isabs path || (pySplitSlash (normpath path)).contains ".."

/- ---------------------------------------------------------------------
read_file (src/main.py lines 46-57)
--------------------------------------------------------------------- -/

/-- What the filesystem holds at a (normalised) path: nothing, readable
text, or a file whose open/read raises with the given message. -/
inductive FileOutcome where
  | missing
  | content (data : String)
  | faulty (err : String)

/-- read_file of src/main.py: sandbox guard, existence check, then a
bounded preview; an open/read fault is caught into an error envelope. -/
def read_file (fs : String → FileOutcome) (path : String) (maxBytes : Nat) : Json :=
  let norm := normpath path
  if unsafeGuard path then Json.obj [("error", Json.str "unsafe_path")]
  else
    match fs norm with
    | .missing => Json.obj [("error", Json.str "not_found")]
    | .content data => Json.obj [("path", Json.str norm), ("preview", Json.str (pyTake maxBytes data))]
    | .faulty e => Json.obj [("error", Json.str e)]

/- ---------------------------------------------------------------------
write_file (src/main.py lines 59-74)
--------------------------------------------------------------------- -/

/-- Filesystem as seen by write_file: file contents per normalised path,
plus fault oracles for os.makedirs on a parent directory and for opening
or writing the target (a fault is the str(e) of the raised exception,
caught by the enclosing try of the source). -/
structure WriteWorld where
  files : String → Option String
  mkdirFault : String → Option String
  writeFault : String → Option String

/-- Point update of the file map. -/
def setFile (files : String → Option String) (p : String) (data : String) :
    String → Option String :=
  fun q => if q = p then some data else files q

/-- write_file of src/main.py: sandbox guard, then parent-directory
creation (note: this runs BEFORE the mode check in the source), then the
mode check, then truncate-or-append write; every fault is caught into an
error envelope carrying the original path. The write fault is modelled
at open, before the file is touched. -/
def write_file (w : WriteWorld) (path content mode : String) : Json × WriteWorld :=
  let norm := normpath path
  if unsafeGuard path then
    (Json.obj [("error", Json.str "unsafe_path"), ("path", Json.str path)], w)
  else
    let parent := dirname norm
    match (if parent ≠ "" then w.mkdirFault parent else none) with
    | some e => (Json.obj [("error", Json.str e), ("path", Json.str path)], w)
    | none =>
      if mode ≠ "overwrite" ∧ mode ≠ "append" then
        (Json.obj [("error", Json.str "bad_mode"), ("allowed", Json.arrs ["overwrite", "append"])], w)
      else
        match w.writeFault norm with
        | some e => (Json.obj [("error", Json.str e), ("path", Json.str path)], w)
        | none =>
          let newData :=
            if mode = "overwrite" then content
            else (w.files norm).getD "" ++ content
          (Json.obj [("status", Json.str "ok"), ("path", Json.str norm),
                     ("mode", Json.str mode), ("bytes_written", Json.num content.length)],
           { w with files := setFile w.files norm newData })

/- ---------------------------------------------------------------------
set_model (src/main.py lines 103-136)
--------------------------------------------------------------------- -/

/-- Network effects of set_model: the liveness probe (a minimal chat
completion against the named model) either succeeds or raises with a
message, and the best-effort unload of the previous model yields the
list of per-endpoint errors it collected. -/
structure SetModelOracle where
  probe : String → Except String Unit
  unload : String → List String

/-- The ok envelope of set_model. -/
def setModelOk (old new : String) (errors : List String) : Json :=
  Json.obj [("status", Json.str "ok"), ("old", Json.str old),
            ("new", Json.str new), ("errors", Json.arrs errors)]

/-- The failed envelope of set_model. -/
def setModelFailed (old new err : String) : Json :=
  Json.obj [("status", Json.str "failed"), ("error", Json.str ("ensure_failed: " ++ err)),
            ("old", Json.str old), ("new", Json.str new)]

/-- set_model of src/main.py acting on the CURRENT_MODEL pointer: set the
pointer to the new model, probe it when ensure_loaded (restoring the
pointer and returning the failed envelope when the probe raises), then
best-effort unload of the previous model, collecting but never
propagating its errors. Returns the new pointer value and the result. -/
def set_model_impl (o : SetModelOracle) (cur model : String)
    (ensureLoaded unloadPrevious : Bool) : String × Json :=
  let old := cur
  match (if ensureLoaded then o.probe model else Except.ok ()) with
  | .error e => (old, setModelFailed old model e)
  | .ok _ =>
    let errors :=
      if unloadPrevious ∧ old ≠ "" ∧ old ≠ model then o.unload old else []
    (model, setModelOk old model errors)

/-- Field lookup in a JSON object. -/
def jsonField (j : Json) (key : String) : Option Json :=
  match j with
  | .obj fields => (fields.find? (fun f => f.1 = key)).map (fun f => f.2)
  | _ => none

/- ---------------------------------------------------------------------
The orchestration loop: data model
--------------------------------------------------------------------- -/

/-- A model-requested tool invocation as delivered by the first response:
an opaque id, a tool name, and the outcome of decoding its raw JSON
argument text with json.loads(arguments or empty-object), which either
yields keyword arguments or raises with a message. -/
structure ToolCall where
  id : String
  name : String
  args : Except String Args

/-- One conversation message, as appended by the loop. -/
inductive Msg where
  | system (content : String)
  | user (content : String)
  | assistant (content : Option String) (toolCalls : List ToolCall)
  | tool (toolCallId : String) (name : String) (content : Json)

/-- The message of the first (non-streaming) response: optional text
content and the (possibly empty) list of tool calls.  An empty list
plays the role of a missing/None tool_calls attribute (both are falsy
in the source's check). -/
structure FirstMsg where
  content : Option String
  toolCalls : List ToolCall

/-- One choice of a streaming chunk: a delta object carrying optional
content when present, a full message object carrying optional content
when present, and an optional terminal text field. -/
structure Choice where
  delta : Option (Option String)
  message : Option (Option String)
  text : Option String

/-- One streaming chunk: its list of choices. -/
structure Chunk where
  choices : List Choice

/-- A chat-completion request as issued by the worker: model name, the
message sequence, the advertised tool schemas (by name) or none, the
tool_choice argument or none, and the stream flag. -/
structure Req where
  model : String
  msgs : List Msg
  tools : Option (List String)
  toolChoice : Option String
  stream : Bool

/-- The names of the advertised TOOLS table of src/main.py, in order. -/
def mainToolNames : List String :=
  ["add", "read_file", "write_file", "list_models", "set_model"]

/-- A tool registry (the FUNCTIONS table): name to implementation.  An
implementation takes the decoded keyword arguments and the tool-visible
session state and either returns a result or raises with a message; in
both cases it may have mutated the state before returning. -/
abbrev Registry (St : Type) := String → Option (Args → St → Except String Json × St)

/-- The delivered part of a streaming response: the chunks the iterator
yielded, and an optional fault raised by the iterator after them. -/
structure StreamResp where
  chunks : List Chunk
  fault : Option String

/-- Transport oracle: completion and streaming-completion outcomes per
request.  first models the initial non-streaming request, completeNS the
final non-streaming request (returning the optional message content),
completeS a streaming request; an error is a raised transport fault, for
the streaming case raised by the create call itself. -/
structure Oracle (St : Type) where
  first : Req → Except String FirstMsg
  completeNS : Req → Except String (Option String)
  completeS : Req → Except String StreamResp

/-- The Qt signal emissions of the worker, as trace events.  Diagnostic
payloads are kept structured rather than formatted.  finished models the
thread-completion notification fired when run returns, which the UI uses
to detect turn completion. -/
inductive Ev where
  | streamStarted
  | streamDelta (piece : String)
  | resultEv (text : String)
  | errorEv (msg : String)
  | toolDebugParse (err : String)
  | toolDebugCall (name : String) (args : Args) (content : Json)
  | streamFinished
  | finished

/-- The cooperative abort flag, modelled as a monotone schedule sampled
at exactly the flag-read sites of the source in execution order: the
k-th read (0-based) observes true iff the schedule is some n with n ≤ k
(none = abort is never requested; isInterruptionRequested is folded into
the same schedule).  Trace events are tagged with the number of reads
completed when they were emitted; the tag of finished is left 0 since no
claim constrains it. -/
def rd (ab : Option Nat) (k : Nat) : Bool :=
  match ab with
  | none => false
  | some n => n ≤ k

/-- Python truthiness of an optional string attribute value. -/
def optTruthy (o : Option String) : Bool :=
  match o with
  | some s => s ≠ ""
  | none => false

/-- Truthiness-gated content of a delta/message attribute: the content
when the attribute is present and its content is truthy, else nothing. -/
def truthyAttr (o : Option (Option String)) : Option String :=
  match o with
  | some inner => if optTruthy inner then inner else none
  | none => none

/-- _extract_stream_piece of src/main.py: nothing when the chunk has no
choices; else the delta content when the delta is present with truthy
content, else the message content when present and truthy, else the
terminal text when truthy, else nothing.  (The source's enclosing
try/except only guards attribute access, which the total model cannot
fault on.) -/
def extractStreamPiece (ch : Chunk) : Option String :=
  match ch.choices with
  | [] => none
  | c :: _ =>
    match truthyAttr c.delta with
    | some s => some s
    | none =>
      match truthyAttr c.message with
      | some s => some s
      | none => if optTruthy c.text then c.text else none

/-- First non-empty text among a list of optional texts. -/
def firstNonemptyText : List (Option String) → Option String
  | [] => none
  | o :: rest =>
    match o with
    | some s => if s ≠ "" then some s else firstNonemptyText rest
    | none => firstNonemptyText rest

/-- The fragment-extraction policy in the words of the spec, for
comparison with the source function: a fragment is non-empty text drawn,
in priority order, from the delta content field, else the full-message
content field, else the terminal text field; a chunk with no choices
yields nothing. -/
def specFragment (ch : Chunk) : Option String :=
  match ch.choices with
  | [] => none
  | c :: _ => firstNonemptyText [c.delta.join, c.message.join, c.text]

/- ---------------------------------------------------------------------
The orchestration loop: tool dispatch (src/main.py lines 281-301)
--------------------------------------------------------------------- -/

variable {St : Type}

/-- The keyword arguments a dispatch actually uses: the decoded ones, or
the empty fallback when decoding raised. -/
def decodedArgs (tc : ToolCall) : Args :=
  match tc.args with
  | .ok a => a
  | .error _ => []

/-- Result of dispatching one tool call: its diagnostic emissions, the
appended tool-role message, and the possibly mutated session state. -/
structure DispatchOut (St : Type) where
  evs : List Ev
  msg : Msg
  st : St

/-- Dispatch of one tool call (the body of the tool loop): on an
argument-decoding fault emit a parse diagnostic and fall back to empty
arguments; look the name up in the registry (absent: an unknown_tool
error envelope); invoke the implementation, catching a raise into an
error envelope; emit the call diagnostic; build the tool-role message
with the call's id. -/
def dispatchOne (reg : Registry St) (tc : ToolCall) (st : St) : DispatchOut St :=
  let parseEvs : List Ev :=
    match tc.args with
    | .ok _ => []
    | .error e => [Ev.toolDebugParse e]
  let dispatched : Json × St :=
    match reg tc.name with
    | none => (Json.obj [("error", Json.str ("unknown_tool:" ++ tc.name))], st)
    | some f =>
      match f (decodedArgs tc) st with
      | (.ok c, st') => (c, st')
      | (.error e, st') => (Json.obj [("error", Json.str e)], st')
  ⟨parseEvs ++ [Ev.toolDebugCall tc.name (decodedArgs tc) dispatched.1],
   Msg.tool tc.id tc.name dispatched.1, dispatched.2⟩

/-- Pure form of the whole dispatch sequence: the tool-role messages for
the calls in order, threading the session state, and the final state. -/
def dispatchAll (reg : Registry St) : List ToolCall → St → List Msg × St
  | [], st => ([], st)
  | tc :: rest, st =>
    let d := dispatchOne reg tc st
    let r := dispatchAll reg rest d.st
    (d.msg :: r.1, r.2)

/-- Outcome of the tool loop: tagged emissions, the extended message
list, the state, the reads completed, and whether an abort read cut the
loop short (the source returns from run in that case). -/
structure ToolLoopOut (St : Type) where
  evs : List (Ev × Nat)
  msgs : List Msg
  st : St
  reads : Nat
  aborted : Bool

/-- The tool loop of run: per call, read the abort flag (stop when set),
else dispatch and append the tool-role message. -/
def toolLoop (reg : Registry St) (ab : Option Nat) :
    List ToolCall → Nat → List Msg → St → ToolLoopOut St
  | [], k, msgs, st => ⟨[], msgs, st, k, false⟩
  | tc :: rest, k, msgs, st =>
    if rd ab k then ⟨[], msgs, st, k + 1, true⟩
    else
      let d := dispatchOne reg tc st
      let r := toolLoop reg ab rest (k + 1) (msgs ++ [d.msg]) d.st
      ⟨d.evs.map (fun e => (e, k + 1)) ++ r.evs, r.msgs, r.st, r.reads, r.aborted⟩

/- ---------------------------------------------------------------------
The orchestration loop: streaming and the final answer
--------------------------------------------------------------------- -/

/-- Whitespace characters stripped by Python str.strip(). -/
def pyIsSpace (c : Char) : Bool :=
  c = ' ' ∨ c = '\t' ∨ c = '\n' ∨ c = '\r' ∨ c = '\x0b' ∨ c = '\x0c'

/-- Python str.strip() (default whitespace). -/
def pyStrip (s : String) : String :=
  String.mk (((s.toList.dropWhile pyIsSpace).reverse.dropWhile pyIsSpace).reverse)

/-- Outcome of the chunk-consuming loop shared by _stream_final_answer
and the no-tools streaming block: tagged fragment emissions, the buffer
of collected pieces in order, the reads completed, and whether an abort
read broke the loop. -/
structure StreamLoopOut where
  evs : List (Ev × Nat)
  buf : List String
  reads : Nat
  broke : Bool

/-- The chunk loop: per chunk, read the abort flag (break when set),
extract a piece and, when truthy, buffer and emit it. -/
def streamLoop (ab : Option Nat) : List Chunk → Nat → StreamLoopOut
  | [], k => ⟨[], [], k, false⟩
  | ch :: rest, k =>
    if rd ab k then ⟨[], [], k + 1, true⟩
    else
      match extractStreamPiece ch with
      | some s =>
        if s ≠ "" then
          let r := streamLoop ab rest (k + 1)
          ⟨(Ev.streamDelta s, k + 1) :: r.evs, s :: r.buf, r.reads, r.broke⟩
        else streamLoop ab rest (k + 1)
      | none => streamLoop ab rest (k + 1)

/-- The truthy pieces of a chunk sequence, in order (what the buffer
holds when no abort interrupts the loop). -/
def collectPieces : List Chunk → List String
  | [] => []
  | ch :: rest =>
    match extractStreamPiece ch with
    | some s => if s ≠ "" then s :: collectPieces rest else collectPieces rest
    | none => collectPieces rest

/-- _stream_final_answer of src/main.py, parameterised by the request it
issues (the identical inline block of the no-tools path reuses it with
its own request): emit streamStarted, issue the streaming create (its
raise propagates before the try/finally, so without streamFinished),
run the chunk loop, always emit streamFinished on leaving it, and
either propagate a trailing iterator fault (only reachable when the
loop was not broken by abort) or return the joined, stripped text.
Returns the emissions, the returned text or propagated fault, and the
reads completed. -/
def streamFinalAnswer (o : Oracle St) (ab : Option Nat) (req : Req) (k : Nat) :
    List (Ev × Nat) × Except String String × Nat :=
  match o.completeS req with
  | .error e => ([(Ev.streamStarted, k)], .error e, k)
  | .ok resp =>
    let r := streamLoop ab resp.chunks k
    let evs := (Ev.streamStarted, k) :: r.evs ++ [(Ev.streamFinished, r.reads)]
    match r.broke, resp.fault with
    | false, some e => (evs, .error e, r.reads)
    | _, _ => (evs, .ok (pyStrip (String.join r.buf)), r.reads)

/-- Lines 306-314 of src/main.py, after the tool loop: when streaming
was requested and the abort flag reads false, stream the final answer
over the extended messages without tool specs and emit the result
unless the flag now reads true (a propagated fault reaches the outer
handler, which emits the error under the same guard); when streaming
was not requested and the flag reads false, issue the final
non-streaming request, emitting its stripped content as the result or
its fault as the error.  Returns the emissions and the issued
requests. -/
def finalPhase (o : Oracle St) (ab : Option Nat) (strm : Bool) (mdl : String)
    (msgs : List Msg) (k : Nat) : List (Ev × Nat) × List Req :=
  if strm then
    if rd ab k then ([], [])
    else
      let req : Req := ⟨mdl, msgs, none, none, true⟩
      let sfa := streamFinalAnswer o ab req (k + 1)
      match sfa.2.1 with
      | .ok txt =>
        (sfa.1 ++ (if rd ab sfa.2.2 then [] else [(Ev.resultEv txt, sfa.2.2 + 1)]), [req])
      | .error e =>
        (sfa.1 ++ (if rd ab sfa.2.2 then [] else [(Ev.errorEv e, sfa.2.2 + 1)]), [req])
  else
    if rd ab k then ([], [])
    else
      let req : Req := ⟨mdl, msgs, none, none, false⟩
      match o.completeNS req with
      | .ok c => ([(Ev.resultEv (pyStrip (c.getD "")), k + 1)], [req])
      | .error e => ((if rd ab (k + 1) then [] else [(Ev.errorEv e, k + 2)]), [req])

/-- Lines 316-340 of src/main.py, when the first response carries no
tool calls: when streaming was requested and the flag reads false,
re-obtain the answer via a second streaming request that keeps the tool
specs attached; otherwise, under the same flag guard, the first
response's content is emitted directly as the result with no further
request. -/
def noToolsPhase (o : Oracle St) (ab : Option Nat) (strm useTools : Bool) (mdl : String)
    (msgs : List Msg) (firstContent : Option String) (k : Nat) :
    List (Ev × Nat) × List Req :=
  if strm then
    if rd ab k then ([], [])
    else
      let req : Req := ⟨mdl, msgs, (if useTools then some mainToolNames else none),
                        (if useTools then some "auto" else none), true⟩
      let sfa := streamFinalAnswer o ab req (k + 1)
      match sfa.2.1 with
      | .ok txt =>
        (sfa.1 ++ (if rd ab sfa.2.2 then [] else [(Ev.resultEv txt, sfa.2.2 + 1)]), [req])
      | .error e =>
        (sfa.1 ++ (if rd ab sfa.2.2 then [] else [(Ev.errorEv e, sfa.2.2 + 1)]), [req])
  else
    if rd ab k then ([], [])
    else ([(Ev.resultEv (pyStrip (firstContent.getD "")), k + 1)], [])

/- ---------------------------------------------------------------------
The orchestration loop: ChatWorker.run (src/main.py lines 262-344)
--------------------------------------------------------------------- -/

/-- Worker configuration snapshot (ChatConfig fields the loop reads). -/
structure Cfg where
  model : String
  useTools : Bool

/-- The first, intentionally non-streaming request of a turn, with the
advertised tool specs attached when tools are enabled. -/
def firstReqOf (cfg : Cfg) (msgs0 : List Msg) : Req :=
  ⟨cfg.model, msgs0, (if cfg.useTools then some mainToolNames else none),
   (if cfg.useTools then some "auto" else none), false⟩

/-- Everything one run of the worker produced: the tagged emission
trace, the final message list, the requests issued in order, and the
final tool-visible session state. -/
structure RunOut (St : Type) where
  trace : List (Ev × Nat)
  msgs : List Msg
  reqs : List Req
  st : St

/-- ChatWorker.run: issue the first non-streaming request (a transport
fault is reported once, under the abort guard of the outer handler);
check the abort flag; with tool calls present, append one assistant
message recording them all, run the tool loop (returning early when an
abort read cuts it), re-read the session model pointer (cur) and run the
final phase; with no tool calls, run the no-tools phase.  Every exit
appends the thread-completion notification. -/
def chatRun (reg : Registry St) (cur : St → String) (o : Oracle St) (ab : Option Nat)
    (cfg : Cfg) (msgs0 : List Msg) (strm : Bool) (st0 : St) : RunOut St :=
  let firstReq := firstReqOf cfg msgs0
  match o.first firstReq with
  | .error e =>
    ⟨(if rd ab 0 then [] else [(Ev.errorEv e, 1)]) ++ [(Ev.finished, 0)],
     msgs0, [firstReq], st0⟩
  | .ok fm =>
    if rd ab 0 then ⟨[(Ev.finished, 0)], msgs0, [firstReq], st0⟩
    else if fm.toolCalls.isEmpty then
      let p := noToolsPhase o ab strm cfg.useTools cfg.model msgs0 fm.content 1
      ⟨p.1 ++ [(Ev.finished, 0)], msgs0, firstReq :: p.2, st0⟩
    else
      let msgs1 := msgs0 ++ [Msg.assistant none fm.toolCalls]
      let r := toolLoop reg ab fm.toolCalls 1 msgs1 st0
      if r.aborted then
        ⟨r.evs ++ [(Ev.finished, 0)], r.msgs, [firstReq], r.st⟩
      else
        let p := finalPhase o ab strm (cur r.st) r.msgs r.reads
        ⟨r.evs ++ p.1 ++ [(Ev.finished, 0)], r.msgs, firstReq :: p.2, r.st⟩

/- ---------------------------------------------------------------------
Trace observations used by the claims
--------------------------------------------------------------------- -/

/-- Whether an event is a fragment, result, or error signal (the kinds
the abort claim says must stop). -/
def isCoreEv : Ev → Bool
  | .streamDelta _ => true
  | .resultEv _ => true
  | .errorEv _ => true
  | _ => false

/-- Whether an event is the thread-completion notification. -/
def isFinishedEv : Ev → Bool
  | .finished => true
  | _ => false

/-- Whether an event is a tool-dispatch diagnostic (marks one actual
tool invocation). -/
def isToolCallEv : Ev → Bool
  | .toolDebugCall _ _ _ => true
  | _ => false

/-- The result texts a trace delivered, in order. -/
def resultTexts (tr : List (Ev × Nat)) : List String :=
  tr.filterMap (fun (p : Ev × Nat) =>
    match p.1 with
    | Ev.resultEv s => some s
    | _ => none)

/-- How many completion notifications a trace carries. -/
def finishedCount (tr : List (Ev × Nat)) : Nat :=
  tr.countP (fun (p : Ev × Nat) => isFinishedEv p.1)

/-- Whether the last emission of a trace is the completion
notification (none when the trace is empty). -/
def lastFinished (tr : List (Ev × Nat)) : Option Bool :=
  tr.getLast?.map (fun (p : Ev × Nat) => isFinishedEv p.1)

/-- How many tool dispatches a trace records. -/
def toolCallCount (tr : List (Ev × Nat)) : Nat :=
  tr.countP (fun (p : Ev × Nat) => isToolCallEv p.1)

/- ---------------------------------------------------------------------
Concrete instances used by witnesses
--------------------------------------------------------------------- -/

/-- Two successive write_file calls with the same arguments. -/
def writeTwice (w : WriteWorld) (path content mode : String) : Json × WriteWorld :=
  write_file (write_file w path content mode).2 path content mode

/-- The ok envelope of write_file. -/
def writeOk (path mode : String) (n : Int) : Json :=
  Json.obj [("status", Json.str "ok"), ("path", Json.str path),
            ("mode", Json.str mode), ("bytes_written", Json.num n)]

/-- An empty filesystem with no fault anywhere. -/
def cleanWorld : WriteWorld := ⟨fun _ => none, fun _ => none, fun _ => none⟩

/-- A set_model network where every liveness probe raises. -/
def probeFailOracle : SetModelOracle := ⟨fun _ => Except.error "boom", fun _ => []⟩

/-- Demo registry over a session state that is just the model pointer:
a model-switching tool, an always-raising tool, nothing else. -/
def demoReg : Registry String := fun name =>
  if name = "set_model" then
    some (fun args st =>
      match args.find? (fun kv => kv.1 = "model") with
      | some kv =>
        match kv.2 with
        | Json.str m => (Except.ok (Json.obj [("status", Json.str "ok"),
            ("old", Json.str st), ("new", Json.str m)]), m)
        | _ => (Except.error "bad model arg", st)
      | none => (Except.error "missing model", st))
  else if name = "boom" then some (fun _ st => (Except.error "kaboom", st))
  else none

/-- A model-switch call, an unknown-tool call, and a call whose raw
arguments fail to decode. -/
def demoCalls : List ToolCall :=
  [⟨"call1", "set_model", Except.ok [("model", Json.str "m2")]⟩,
   ⟨"call2", "nosuch", Except.ok []⟩,
   ⟨"call3", "boom", Except.error "bad json"⟩]

/-- Transport oracle whose first response requests the demo calls. -/
def demoOracle : Oracle String :=
  ⟨fun _ => Except.ok ⟨none, demoCalls⟩,
   fun _ => Except.ok (some " done "),
   fun _ => Except.ok ⟨[⟨[⟨some (some "par"), none, none⟩]⟩], none⟩⟩

/-- Demo configuration: model m1, tools enabled. -/
def demoCfg : Cfg := ⟨"m1", true⟩

/-- Transport oracle whose first response is plain text and whose
streaming responses deliver the same text in one chunk. -/
def quietOracle : Oracle Unit :=
  ⟨fun _ => Except.ok ⟨some "hi", []⟩,
   fun _ => Except.ok (some "unused"),
   fun _ => Except.ok ⟨[⟨[⟨some (some "hi"), none, none⟩]⟩], none⟩⟩

/- =====================================================================
Theorems
===================================================================== -/

/-- Claim C6 (amended): read_file rejects, with exactly the unsafe_path
envelope and independently of the filesystem, every absolute path and
every path whose normalised form retains a parent-traversal segment; in
particular the concrete inputs dot-dot-slash-secret.txt and
slash-etc-slash-passwd are always rejected. -/
theorem read_file_sandbox (fs : String → FileOutcome) (path : String) (maxBytes : Nat)
    (h : isabs path = true ∨ (pySplitSlash (normpath path)).contains ".." = true) :
    read_file fs path maxBytes = Json.obj [("error", Json.str "unsafe_path")] ∧
    read_file fs "../secret.txt" maxBytes = Json.obj [("error", Json.str "unsafe_path")] ∧
    read_file fs "/etc/passwd" maxBytes = Json.obj [("error", Json.str "unsafe_path")] := by
  refine ⟨?_, ?_, ?_⟩
  · have hg : unsafeGuard path = true := by
      rcases h with h | h
      · simp [unsafeGuard, h]
      · simp only [unsafeGuard, h, Bool.or_true]
    simp [read_file, hg]
  · have hg : unsafeGuard "../secret.txt" = true := by decide
    simp [read_file, hg]
  · have hg : unsafeGuard "/etc/passwd" = true := by decide
    simp [read_file, hg]

/-- Witness for read_file_sandbox at a concrete absolute path. -/
theorem read_file_sandbox_witness :
    read_file (fun _ => FileOutcome.missing) "/etc/passwd" 4096 =
      Json.obj [("error", Json.str "unsafe_path")] :=
  (read_file_sandbox (fun _ => FileOutcome.missing) "/etc/passwd" 4096 (Or.inl (by decide))).2.2

/-- Claim C6 counterexample: the relative path a-slash-dotdot-slash-b
contains a parent-traversal segment, yet read_file does not return the
unsafe_path envelope: normalisation collapses the segment, so the call
reaches the filesystem and returns contents (or not_found). -/
theorem read_file_traversal_counterexample :
    (pySplitSlash "a/../b").contains ".." = true ∧
    isabs "a/../b" = false ∧
    read_file (fun s => if s = "b" then FileOutcome.content "secret" else FileOutcome.missing)
        "a/../b" 4096 =
      Json.obj [("path", Json.str "b"), ("preview", Json.str "secret")] ∧
    read_file (fun _ => FileOutcome.missing) "a/../b" 4096 =
      Json.obj [("error", Json.str "not_found")] := by
  refine ⟨by decide, by decide, ?_, ?_⟩ <;> rfl

/-- Claim C7: for a safe relative path on a faultless filesystem with no
file present, two appends of "hi" leave "hihi" while two overwrites
leave "hi", and every successful call returns the ok envelope with
bytes_written equal to the content length. -/
theorem write_file_modes (w : WriteWorld) (path : String)
    (hsafe : unsafeGuard path = false)
    (hmk : w.mkdirFault (dirname (normpath path)) = none)
    (hwr : w.writeFault (normpath path) = none)
    (hnew : w.files (normpath path) = none) :
    (writeTwice w path "hi" "append").2.files (normpath path) = some "hihi" ∧
    (writeTwice w path "hi" "overwrite").2.files (normpath path) = some "hi" ∧
    (∀ content : String,
      (write_file w path content "append").1 = writeOk (normpath path) "append" content.length) ∧
    (∀ content : String,
      (write_file w path content "overwrite").1 = writeOk (normpath path) "overwrite" content.length) ∧
    (writeTwice w path "hi" "append").1 = writeOk (normpath path) "append" 2 := by
  have hstep : ∀ (files : String → Option String) (content mode : String),
      (mode = "overwrite" ∨ mode = "append") →
      write_file ⟨files, w.mkdirFault, w.writeFault⟩ path content mode =
        (writeOk (normpath path) mode content.length,
         ⟨setFile files (normpath path)
            (if mode = "overwrite" then content else (files (normpath path)).getD "" ++ content),
          w.mkdirFault, w.writeFault⟩) := by
    intro files content mode hmode
    unfold write_file
    by_cases hp : dirname (normpath path) = ""
    · rcases hmode with hm | hm <;>
        simp [hsafe, hp, hwr, hm, writeOk]
    · rcases hmode with hm | hm <;>
        simp [hsafe, hp, hmk, hwr, hm, writeOk]
  have weta : w = ⟨w.files, w.mkdirFault, w.writeFault⟩ := rfl
  have h1 := hstep w.files "hi" "append" (Or.inr rfl)
  have h2 := hstep w.files "hi" "overwrite" (Or.inl rfl)
  refine ⟨?_, ?_, ?_, ?_, ?_⟩
  · rw [writeTwice, weta, h1]
    rw [hstep _ "hi" "append" (Or.inr rfl)]
    simp [setFile, hnew]
  · rw [writeTwice, weta, h2]
    rw [hstep _ "hi" "overwrite" (Or.inl rfl)]
    simp [setFile]
  · intro content
    rw [weta, hstep w.files content "append" (Or.inr rfl)]
  · intro content
    rw [weta, hstep w.files content "overwrite" (Or.inl rfl)]
  · rw [writeTwice, weta, h1, hstep _ "hi" "append" (Or.inr rfl)]
    rfl

/-- Witness for write_file_modes on an empty faultless filesystem. -/
theorem write_file_modes_witness :
    (writeTwice cleanWorld "a/b/c.txt" "hi" "append").2.files "a/b/c.txt" = some "hihi" ∧
    (writeTwice cleanWorld "a/b/c.txt" "hi" "overwrite").2.files "a/b/c.txt" = some "hi" := by
  have h := write_file_modes cleanWorld "a/b/c.txt" (by decide) rfl rfl rfl
  exact ⟨h.1, h.2.1⟩

/-- Claim C10 (amended): for a safe relative path and an invalid mode,
provided parent-directory creation does not fault (the source creates
parent directories before validating the mode), write_file returns
exactly the bad_mode envelope; and in every case no exception escapes
and the filesystem is left untouched. -/
theorem write_file_bad_mode (w : WriteWorld) (path content mode : String)
    (hsafe : unsafeGuard path = false)
    (hov : mode ≠ "overwrite") (hap : mode ≠ "append") :
    ((dirname (normpath path) ≠ "" → w.mkdirFault (dirname (normpath path)) = none) →
      (write_file w path content mode).1 =
        Json.obj [("error", Json.str "bad_mode"), ("allowed", Json.arrs ["overwrite", "append"])]) ∧
    (write_file w path content mode).2 = w := by
  constructor
  · intro hmk
    unfold write_file
    by_cases hp : dirname (normpath path) = ""
    · simp [hsafe, hp, hov, hap]
    · simp [hsafe, hp, hmk hp, hov, hap]
  · unfold write_file
    by_cases hp : dirname (normpath path) = ""
    · simp [hsafe, hp, hov, hap]
    · cases hf : w.mkdirFault (dirname (normpath path)) <;> simp [hsafe, hp, hf, hov, hap]

/-- Witness for write_file_bad_mode at a parentless path. -/
theorem write_file_bad_mode_witness :
    (write_file cleanWorld "c.txt" "x" "bogus").1 =
      Json.obj [("error", Json.str "bad_mode"), ("allowed", Json.arrs ["overwrite", "append"])] :=
  (write_file_bad_mode cleanWorld "c.txt" "x" "bogus" (by decide) (by decide) (by decide)).1
    (fun h => absurd rfl h)

/-- Claim C10 counterexample: with a safe relative path whose parent
component exists as a regular file, os.makedirs raises before the mode
is validated, so an invalid mode yields the caught-exception envelope,
not the bad_mode envelope. -/
theorem write_file_bad_mode_counterexample :
    (write_file ⟨fun _ => none, fun _ => some "exists", fun _ => none⟩ "a/b.txt" "x" "bogus").1 =
      Json.obj [("error", Json.str "exists"), ("path", Json.str "a/b.txt")] ∧
    (write_file ⟨fun _ => none, fun _ => some "exists", fun _ => none⟩ "a/b.txt" "x" "bogus").1 ≠
      Json.obj [("error", Json.str "bad_mode"), ("allowed", Json.arrs ["overwrite", "append"])] := by
  refine ⟨rfl, ?_⟩
  intro h
  rw [show (write_file ⟨fun _ => none, fun _ => some "exists", fun _ => none⟩ "a/b.txt" "x" "bogus").1 =
      Json.obj [("error", Json.str "exists"), ("path", Json.str "a/b.txt")] from rfl] at h
  simp at h

/-- Claim C5: when the liveness probe raises, set_model with
ensure_loaded restores the prior model pointer and returns the failed
envelope naming the old and attempted models; the pointer always ends at
either the old or the new model, never elsewhere; and the result status
is failed exactly when ensure_loaded is set and the probe raises (so the
switch can only fail through the probe). -/
theorem set_model_rollback (o : SetModelOracle) (cur model : String) :
    (∀ (up : Bool) (e : String), o.probe model = Except.error e →
        set_model_impl o cur model true up = (cur, setModelFailed cur model e)) ∧
    (∀ el up : Bool, (set_model_impl o cur model el up).1 = cur ∨
        (set_model_impl o cur model el up).1 = model) ∧
    (∀ el up : Bool, jsonField (set_model_impl o cur model el up).2 "status" =
        some (Json.str "failed") ↔ (el = true ∧ ∃ e, o.probe model = Except.error e)) := by
  refine ⟨?_, ?_, ?_⟩
  · intro up e he
    simp [set_model_impl, he]
  · intro el up
    cases el
    · right; simp [set_model_impl]
    · cases he : o.probe model
      · left; simp [set_model_impl, he]
      · right; simp [set_model_impl, he]
  · intro el up
    cases el
    · simp [set_model_impl, setModelOk, jsonField]
    · cases he : o.probe model with
      | error e => simp [set_model_impl, he, setModelFailed, jsonField]
      | ok u => simp [set_model_impl, he, setModelOk, jsonField]

/-- Witness for set_model_rollback under an always-failing probe. -/
theorem set_model_rollback_witness :
    set_model_impl probeFailOracle "oldmodel" "newmodel" true false =
      ("oldmodel", setModelFailed "oldmodel" "newmodel" "boom") :=
  (set_model_rollback probeFailOracle "oldmodel" "newmodel").1 false "boom" rfl





/-- With abort never requested, the tool loop processes every call:
the messages and state are those of the pure dispatch sequence, the
loop is not aborted, and one flag read per call was performed. -/
theorem toolLoop_none (reg : Registry St) :
    ∀ (calls : List ToolCall) (k : Nat) (msgs : List Msg) (st : St),
      (toolLoop reg none calls k msgs st).msgs = msgs ++ (dispatchAll reg calls st).1 ∧
      (toolLoop reg none calls k msgs st).st = (dispatchAll reg calls st).2 ∧
      (toolLoop reg none calls k msgs st).aborted = false ∧
      (toolLoop reg none calls k msgs st).reads = k + calls.length := by
  intro calls
  induction calls with
  | nil => intro k msgs st; simp [toolLoop, dispatchAll]
  | cons tc rest ih =>
    intro k msgs st
    obtain ⟨h1, h2, h3, h4⟩ := ih (k + 1) (msgs ++ [(dispatchOne reg tc st).msg]) (dispatchOne reg tc st).st
    simp [toolLoop, rd, dispatchAll, h1, h2, h3, h4]
    omega

/-- The dispatch sequence yields exactly one tool-role message per call,
aligned in order and carrying the call's id and name. -/
theorem dispatchAll_matches (reg : Registry St) :
    ∀ (calls : List ToolCall) (st : St),
      List.Forall₂ (fun (m : Msg) (tc : ToolCall) => ∃ c, m = Msg.tool tc.id tc.name c)
        (dispatchAll reg calls st).1 calls := by
  intro calls
  induction calls with
  | nil => intro st; simp [dispatchAll]
  | cons tc rest ih =>
    intro st
    simp only [dispatchAll]
    exact List.Forall₂.cons ⟨_, rfl⟩ (ih _)

/-- With abort never requested, the chunk loop buffers exactly the
truthy pieces and never breaks. -/
theorem streamLoop_none :
    ∀ (cs : List Chunk) (k : Nat),
      (streamLoop none cs k).buf = collectPieces cs ∧
      (streamLoop none cs k).broke = false := by
  intro cs
  induction cs with
  | nil => intro k; simp [streamLoop, collectPieces]
  | cons ch rest ih =>
    intro k
    obtain ⟨h1, h2⟩ := ih (k + 1)
    cases hp : extractStreamPiece ch with
    | none => simp [streamLoop, rd, collectPieces, hp, h1, h2]
    | some s =>
      by_cases hs : s = ""
      · simp [streamLoop, rd, collectPieces, hp, hs, h1, h2]
      · simp [streamLoop, rd, collectPieces, hp, hs, h1, h2]

/-- Every chunk-loop emission is a fragment. -/
theorem streamLoop_evs_delta {ab : Option Nat} :
    ∀ (cs : List Chunk) (k : Nat) (p : Ev × Nat),
      p ∈ (streamLoop ab cs k).evs → ∃ s, p.1 = Ev.streamDelta s := by
  intro cs
  induction cs with
  | nil => intro k p hp; simp [streamLoop] at hp
  | cons ch rest ih =>
    intro k p hp
    by_cases hk : rd ab k
    · simp [streamLoop, hk] at hp
    · cases hpc : extractStreamPiece ch with
      | none =>
        simp only [streamLoop, hk, Bool.false_eq_true, if_false, hpc] at hp
        exact ih (k + 1) p hp
      | some s =>
        by_cases hs : s = ""
        · simp only [streamLoop, hk, Bool.false_eq_true, if_false, hpc, hs, ne_eq,
            not_true_eq_false] at hp
          exact ih (k + 1) p hp
        · simp only [streamLoop, hk, Bool.false_eq_true, if_false, hpc, hs, ne_eq,
            not_false_eq_true, if_true] at hp
          cases hp with
          | head => exact ⟨s, rfl⟩
          | tail _ hp => exact ih (k + 1) p hp

/-- Under an abort schedule, every fragment the chunk loop emitted was
guarded by a read that returned false, so its tag stays at or below the
schedule bound. -/
theorem streamLoop_evs_tag {n : Nat} :
    ∀ (cs : List Chunk) (k : Nat) (p : Ev × Nat),
      p ∈ (streamLoop (some n) cs k).evs → p.2 ≤ n := by
  intro cs
  induction cs with
  | nil => intro k p hp; simp [streamLoop] at hp
  | cons ch rest ih =>
    intro k p hp
    by_cases hk : rd (some n) k
    · simp [streamLoop, hk] at hp
    · have hkn : k < n := by
        simp [rd] at hk; omega
      cases hpc : extractStreamPiece ch with
      | none =>
        simp only [streamLoop, hk, Bool.false_eq_true, if_false, hpc] at hp
        exact ih (k + 1) p hp
      | some s =>
        by_cases hs : s = ""
        · simp only [streamLoop, hk, Bool.false_eq_true, if_false, hpc, hs, ne_eq,
            not_true_eq_false] at hp
          exact ih (k + 1) p hp
        · simp only [streamLoop, hk, Bool.false_eq_true, if_false, hpc, hs, ne_eq,
            not_false_eq_true, if_true] at hp
          cases hp with
          | head => simpa using Nat.succ_le_of_lt hkn
          | tail _ hp => exact ih (k + 1) p hp

/-- Emissions of the streaming helper: never the completion
notification, never a tool diagnostic, and every core signal is tagged
at or below the abort bound. -/
theorem streamFinalAnswer_evs (o : Oracle St) (ab : Option Nat) (req : Req) (k : Nat) :
    ∀ p ∈ (streamFinalAnswer o ab req k).1,
      isFinishedEv p.1 = false ∧ isToolCallEv p.1 = false ∧
      (∀ n, ab = some n → isCoreEv p.1 = true → p.2 ≤ n) := by
  intro p hp
  unfold streamFinalAnswer at hp
  cases hS : o.completeS req with
  | error e =>
    rw [hS] at hp
    simp at hp
    rw [hp]
    exact ⟨rfl, rfl, by intro n _ hc; exact absurd hc (by simp [isCoreEv])⟩
  | ok resp =>
    rw [hS] at hp
    simp only at hp
    have hmem : p = (Ev.streamStarted, k) ∨
        p ∈ (streamLoop ab resp.chunks k).evs ∨
        p = (Ev.streamFinished, (streamLoop ab resp.chunks k).reads) := by
      rcases hb : (streamLoop ab resp.chunks k).broke with _ | _ <;>
        rcases hf : resp.fault with _ | e <;>
          simp only [hb, hf] at hp <;>
          · simp only [List.mem_cons, List.mem_append, List.mem_singleton] at hp
            tauto
    rcases hmem with rfl | hm | rfl
    · exact ⟨rfl, rfl, by intro n _ hc; exact absurd hc (by simp [isCoreEv])⟩
    · obtain ⟨s, hs⟩ := streamLoop_evs_delta _ _ p hm
      refine ⟨by rw [hs]; rfl, by rw [hs]; rfl, ?_⟩
      intro n hab _
      subst hab
      exact streamLoop_evs_tag _ _ p hm
    · exact ⟨rfl, rfl, by intro n _ hc; exact absurd hc (by simp [isCoreEv])⟩

/-- Every dispatch emission is a tool diagnostic. -/
theorem dispatchOne_evs (reg : Registry St) (tc : ToolCall) (st : St) :
    ∀ e ∈ (dispatchOne reg tc st).evs, isFinishedEv e = false ∧ isCoreEv e = false := by
  intro e he
  unfold dispatchOne at he
  cases ha : tc.args with
  | error msg =>
    simp only [ha, List.cons_append, List.nil_append, List.mem_cons, List.not_mem_nil,
      or_false] at he
    rcases he with rfl | rfl <;> exact ⟨rfl, rfl⟩
  | ok a =>
    simp only [ha, List.nil_append, List.mem_singleton] at he
    rw [he]
    exact ⟨rfl, rfl⟩

/-- Every tool-loop emission is a tool diagnostic. -/
theorem toolLoop_evs (reg : Registry St) (ab : Option Nat) :
    ∀ (calls : List ToolCall) (k : Nat) (msgs : List Msg) (st : St),
      ∀ p ∈ (toolLoop reg ab calls k msgs st).evs,
        isFinishedEv p.1 = false ∧ isCoreEv p.1 = false := by
  intro calls
  induction calls with
  | nil => intro k msgs st p hp; simp [toolLoop] at hp
  | cons tc rest ih =>
    intro k msgs st p hp
    by_cases hk : rd ab k
    · simp [toolLoop, hk] at hp
    · simp only [toolLoop, hk, Bool.false_eq_true, if_false] at hp
      rw [List.mem_append] at hp
      rcases hp with hp | hp
      case _ =>
        rw [List.mem_map] at hp
        obtain ⟨e, he, rfl⟩ := hp
        exact dispatchOne_evs reg tc st e he
      case _ =>
        exact ih (k + 1) (msgs ++ [(dispatchOne reg tc st).msg]) (dispatchOne reg tc st).st p hp




/-- Emissions of the final phase: never the completion notification,
never a tool diagnostic, and every core signal is tagged at or below
the abort bound. -/
theorem finalPhase_evs (o : Oracle St) (ab : Option Nat) (strm : Bool) (mdl : String)
    (msgs : List Msg) (k : Nat) :
    ∀ p ∈ (finalPhase o ab strm mdl msgs k).1,
      isFinishedEv p.1 = false ∧ isToolCallEv p.1 = false ∧
      (∀ n, ab = some n → isCoreEv p.1 = true → p.2 ≤ n) := by
  intro p hp
  unfold finalPhase at hp
  cases strm with
  | true =>
    by_cases hk : rd ab k
    · simp [hk] at hp
    · simp only [hk, Bool.false_eq_true, if_false, if_true] at hp
      rcases hres : (streamFinalAnswer o ab ⟨mdl, msgs, none, none, true⟩ (k + 1)).2.1
        with txt | e <;>
      · rw [hres] at hp
        rw [List.mem_append] at hp
        rcases hp with hp | hp
        case _ => exact streamFinalAnswer_evs o ab _ (k + 1) p hp
        case _ =>
          by_cases hk' : rd ab (streamFinalAnswer o ab ⟨mdl, msgs, none, none, true⟩ (k + 1)).2.2
          · simp [hk'] at hp
          · simp only [hk', Bool.false_eq_true, if_false, List.mem_singleton] at hp
            subst hp
            refine ⟨rfl, rfl, ?_⟩
            intro n hab _
            subst hab
            simp only [rd, not_le, decide_eq_true_eq] at hk'
            omega
  | false =>
    by_cases hk : rd ab k
    · simp [hk] at hp
    · simp only [hk, Bool.false_eq_true, if_false, if_true] at hp
      have hkn : ∀ n, ab = some n → k < n := by
        intro n hab; subst hab
        simp only [rd, not_le, decide_eq_true_eq] at hk
        omega
      cases hc : o.completeNS ⟨mdl, msgs, none, none, false⟩ with
      | ok c =>
        rw [hc] at hp
        simp only [List.mem_singleton] at hp
        subst hp
        exact ⟨rfl, rfl, fun n hab _ => by have := hkn n hab; simp; omega⟩
      | error e =>
        rw [hc] at hp
        by_cases hk' : rd ab (k + 1)
        · simp [hk'] at hp
        · simp only [hk', Bool.false_eq_true, if_false, List.mem_singleton] at hp
          subst hp
          refine ⟨rfl, rfl, ?_⟩
          intro n hab _
          subst hab
          simp only [rd, not_le, decide_eq_true_eq] at hk'
          simp
          omega




/-- Emissions of the no-tools phase: never the completion notification,
never a tool diagnostic, and every core signal is tagged at or below
the abort bound. -/
theorem noToolsPhase_evs (o : Oracle St) (ab : Option Nat) (strm useTools : Bool)
    (mdl : String) (msgs : List Msg) (firstContent : Option String) (k : Nat) :
    ∀ p ∈ (noToolsPhase o ab strm useTools mdl msgs firstContent k).1,
      isFinishedEv p.1 = false ∧ isToolCallEv p.1 = false ∧
      (∀ n, ab = some n → isCoreEv p.1 = true → p.2 ≤ n) := by
  intro p hp
  unfold noToolsPhase at hp
  cases strm with
  | true =>
    by_cases hk : rd ab k
    · simp [hk] at hp
    · simp only [hk, Bool.false_eq_true, if_false, if_true] at hp
      rcases hres : (streamFinalAnswer o ab
          ⟨mdl, msgs, (if useTools then some mainToolNames else none),
           (if useTools then some "auto" else none), true⟩ (k + 1)).2.1 with txt | e <;>
      · rw [hres] at hp
        rw [List.mem_append] at hp
        rcases hp with hp | hp
        case _ => exact streamFinalAnswer_evs o ab _ (k + 1) p hp
        case _ =>
          by_cases hk' : rd ab (streamFinalAnswer o ab
              ⟨mdl, msgs, (if useTools then some mainToolNames else none),
               (if useTools then some "auto" else none), true⟩ (k + 1)).2.2
          · simp [hk'] at hp
          · simp only [hk', Bool.false_eq_true, if_false, List.mem_singleton] at hp
            subst hp
            refine ⟨rfl, rfl, ?_⟩
            intro n hab _
            subst hab
            simp only [rd, not_le, decide_eq_true_eq] at hk'
            omega
  | false =>
    by_cases hk : rd ab k
    · simp [hk] at hp
    · simp only [hk, Bool.false_eq_true, if_false, if_true, List.mem_singleton] at hp
      subst hp
      refine ⟨rfl, rfl, ?_⟩
      intro n hab _
      subst hab
      simp only [rd, not_le, decide_eq_true_eq] at hk
      simp
      omega

/-- With abort never requested, the final phase issues exactly one
request: the final request over the given model and messages, with no
tool specs and no tool_choice, streaming as requested. -/
theorem finalPhase_reqs (o : Oracle St) (strm : Bool) (mdl : String)
    (msgs : List Msg) (k : Nat) :
    (finalPhase o none strm mdl msgs k).2 = [⟨mdl, msgs, none, none, strm⟩] := by
  unfold finalPhase
  cases strm with
  | true =>
    simp only [rd, Bool.false_eq_true, if_false, if_true]
    rcases (streamFinalAnswer o none ⟨mdl, msgs, none, none, true⟩ (k + 1)).2.1 with txt | e <;> rfl
  | false =>
    simp only [rd, Bool.false_eq_true, if_false]
    rcases o.completeNS ⟨mdl, msgs, none, none, false⟩ with c | e <;> rfl




/-- A trace consisting of completion-free emissions followed by the one
completion notification carries it exactly once, and last. -/
theorem traceShape (pre : List (Ev × Nat)) (h : ∀ p ∈ pre, isFinishedEv p.1 = false) :
    finishedCount (pre ++ [(Ev.finished, 0)]) = 1 ∧
    lastFinished (pre ++ [(Ev.finished, 0)]) = some true := by
  have h0 : finishedCount pre = 0 := by
    rw [finishedCount, List.countP_eq_zero]
    intro a ha
    simp [h a ha]
  constructor
  · rw [finishedCount, List.countP_append, ← finishedCount, h0]
    rfl
  · rw [lastFinished, List.getLast?_concat]
    rfl

/-- Claim C4: for every oracle and every (monotone) abort schedule, the
completion notification is emitted exactly once per turn and is the last
event, and every fragment, result, or error signal carries a read tag at
or below the abort bound, i.e. once a flag read observes abort no further
such signal is emitted. -/
theorem abort_quiescence (reg : Registry St) (cur : St → String) (o : Oracle St)
    (ab : Option Nat) (cfg : Cfg) (msgs0 : List Msg) (strm : Bool) (st0 : St) :
    finishedCount (chatRun reg cur o ab cfg msgs0 strm st0).trace = 1 ∧
    lastFinished (chatRun reg cur o ab cfg msgs0 strm st0).trace = some true ∧
    (∀ n, ab = some n → ∀ p ∈ (chatRun reg cur o ab cfg msgs0 strm st0).trace,
      isCoreEv p.1 = true → p.2 ≤ n) := by
  have main : ∃ pre, (chatRun reg cur o ab cfg msgs0 strm st0).trace = pre ++ [(Ev.finished, 0)] ∧
      (∀ p ∈ pre, isFinishedEv p.1 = false) ∧
      (∀ n, ab = some n → ∀ p ∈ pre, isCoreEv p.1 = true → p.2 ≤ n) := by
    unfold chatRun
    cases hf : o.first (firstReqOf cfg msgs0) with
    | error e =>
      simp only [hf]
      refine ⟨if rd ab 0 then [] else [(Ev.errorEv e, 1)], rfl, ?_, ?_⟩
      · by_cases h0 : rd ab 0
        · simp [h0]
        · simp only [h0, Bool.false_eq_true, if_false, List.mem_singleton]
          rintro p rfl
          rfl
      · intro n hab p hp _
        subst hab
        by_cases h0 : rd (some n) 0
        · simp [h0] at hp
        · simp only [h0, Bool.false_eq_true, if_false, List.mem_singleton] at hp
          subst hp
          simp only [rd, not_le, decide_eq_true_eq] at h0
          simpa using h0
    | ok fm =>
      simp only [hf]
      by_cases h0 : rd ab 0
      · simp only [h0, if_true]
        exact ⟨[], rfl, by simp, by simp⟩
      · simp only [h0, Bool.false_eq_true, if_false]
        by_cases hempty : fm.toolCalls.isEmpty
        · simp only [hempty, if_true]
          refine ⟨(noToolsPhase o ab strm cfg.useTools cfg.model msgs0 fm.content 1).1, rfl, ?_, ?_⟩
          · intro p hp
            exact (noToolsPhase_evs o ab strm cfg.useTools cfg.model msgs0 fm.content 1 p hp).1
          · intro n hab p hp hc
            exact (noToolsPhase_evs o ab strm cfg.useTools cfg.model msgs0 fm.content 1 p hp).2.2
              n hab hc
        · simp only [hempty, Bool.false_eq_true, if_false]
          by_cases habort :
              (toolLoop reg ab fm.toolCalls 1 (msgs0 ++ [Msg.assistant none fm.toolCalls]) st0).aborted
          · simp only [habort, if_true]
            refine ⟨(toolLoop reg ab fm.toolCalls 1
                (msgs0 ++ [Msg.assistant none fm.toolCalls]) st0).evs, rfl, ?_, ?_⟩
            · intro p hp
              exact (toolLoop_evs reg ab fm.toolCalls 1
                (msgs0 ++ [Msg.assistant none fm.toolCalls]) st0 p hp).1
            · intro n hab p hp hc
              have hk := (toolLoop_evs reg ab fm.toolCalls 1
                (msgs0 ++ [Msg.assistant none fm.toolCalls]) st0 p hp).2
              rw [hk] at hc
              exact absurd hc (by simp)
          · simp only [habort, Bool.false_eq_true, if_false]
            refine ⟨(toolLoop reg ab fm.toolCalls 1
                  (msgs0 ++ [Msg.assistant none fm.toolCalls]) st0).evs ++
                (finalPhase o ab strm
                  (cur (toolLoop reg ab fm.toolCalls 1
                    (msgs0 ++ [Msg.assistant none fm.toolCalls]) st0).st)
                  (toolLoop reg ab fm.toolCalls 1
                    (msgs0 ++ [Msg.assistant none fm.toolCalls]) st0).msgs
                  (toolLoop reg ab fm.toolCalls 1
                    (msgs0 ++ [Msg.assistant none fm.toolCalls]) st0).reads).1,
              by rw [List.append_assoc], ?_, ?_⟩
            · intro p hp
              rw [List.mem_append] at hp
              rcases hp with hp | hp
              · exact (toolLoop_evs reg ab fm.toolCalls 1
                  (msgs0 ++ [Msg.assistant none fm.toolCalls]) st0 p hp).1
              · exact (finalPhase_evs o ab strm _ _ _ p hp).1
            · intro n hab p hp hc
              rw [List.mem_append] at hp
              rcases hp with hp | hp
              · have hk := (toolLoop_evs reg ab fm.toolCalls 1
                  (msgs0 ++ [Msg.assistant none fm.toolCalls]) st0 p hp).2
                rw [hk] at hc
                exact absurd hc (by simp)
              · exact (finalPhase_evs o ab strm _ _ _ p hp).2.2 n hab hc
  obtain ⟨pre, htr, hfin, hcore⟩ := main
  obtain ⟨hcount, hlast⟩ := traceShape pre hfin
  refine ⟨by rw [htr]; exact hcount, by rw [htr]; exact hlast, ?_⟩
  intro n hab p hp hc
  rw [htr, List.mem_append] at hp
  rcases hp with hp | hp
  · exact hcore n hab p hp hc
  · simp only [List.mem_singleton] at hp
    subst hp
    exact absurd hc (by simp [isCoreEv])




/-- With abort never requested and tool calls present in the first
response, the run's message list is the snapshot plus the one assistant
message recording all calls plus the dispatch messages, and exactly two
requests are issued: the first request and the final request over the
extended messages, with no tool specs, no tool_choice, streaming as the
caller asked, and the model re-read from the session pointer after all
dispatches. -/
theorem chatRun_toolpath (reg : Registry St) (cur : St → String) (o : Oracle St)
    (cfg : Cfg) (msgs0 : List Msg) (strm : Bool) (st0 : St) (fm : FirstMsg)
    (hf : o.first (firstReqOf cfg msgs0) = Except.ok fm) (hne : fm.toolCalls ≠ []) :
    (chatRun reg cur o none cfg msgs0 strm st0).msgs =
      msgs0 ++ [Msg.assistant none fm.toolCalls] ++ (dispatchAll reg fm.toolCalls st0).1 ∧
    (chatRun reg cur o none cfg msgs0 strm st0).reqs =
      [firstReqOf cfg msgs0,
       ⟨cur (dispatchAll reg fm.toolCalls st0).2,
        msgs0 ++ [Msg.assistant none fm.toolCalls] ++ (dispatchAll reg fm.toolCalls st0).1,
        none, none, strm⟩] := by
  have hempty : fm.toolCalls.isEmpty = false := by
    cases hc : fm.toolCalls with
    | nil => exact absurd hc hne
    | cons a l => rfl
  obtain ⟨hm, hs, ha, hk⟩ := toolLoop_none reg fm.toolCalls 1
    (msgs0 ++ [Msg.assistant none fm.toolCalls]) st0
  unfold chatRun
  simp only [hf, rd, Bool.false_eq_true, if_false, hempty, ha, hm, hs]
  constructor
  · trivial
  · rw [finalPhase_reqs o strm _ _ _]




/-- Claim C1: when the first response carries tool calls and abort is
never requested, the run appends exactly one assistant message recording
all the calls, followed by exactly one tool-role message per call,
immediately, in dispatch order, each carrying the matching call id. -/
theorem tool_turn_messages (reg : Registry St) (cur : St → String) (o : Oracle St)
    (cfg : Cfg) (msgs0 : List Msg) (strm : Bool) (st0 : St) (fm : FirstMsg)
    (hf : o.first (firstReqOf cfg msgs0) = Except.ok fm) (hne : fm.toolCalls ≠ []) :
    (chatRun reg cur o none cfg msgs0 strm st0).msgs =
      msgs0 ++ [Msg.assistant none fm.toolCalls] ++ (dispatchAll reg fm.toolCalls st0).1 ∧
    List.Forall₂ (fun (m : Msg) (tc : ToolCall) => ∃ c, m = Msg.tool tc.id tc.name c)
      (dispatchAll reg fm.toolCalls st0).1 fm.toolCalls :=
  ⟨(chatRun_toolpath reg cur o cfg msgs0 strm st0 fm hf hne).1,
   dispatchAll_matches reg fm.toolCalls st0⟩

/-- Claim C3: after the tool calls are processed the run issues exactly
one more request, whose model is re-read from the session pointer after
all dispatches (so an earlier set_model in the same turn takes effect),
whose message sequence is the extended one, which carries no tool specs
and no tool_choice, and which streams iff the caller asked to stream. -/
theorem final_request_fresh_model (reg : Registry St) (cur : St → String) (o : Oracle St)
    (cfg : Cfg) (msgs0 : List Msg) (strm : Bool) (st0 : St) (fm : FirstMsg)
    (hf : o.first (firstReqOf cfg msgs0) = Except.ok fm) (hne : fm.toolCalls ≠ []) :
    (chatRun reg cur o none cfg msgs0 strm st0).reqs =
      [firstReqOf cfg msgs0,
       ⟨cur (dispatchAll reg fm.toolCalls st0).2,
        msgs0 ++ [Msg.assistant none fm.toolCalls] ++ (dispatchAll reg fm.toolCalls st0).1,
        none, none, strm⟩] :=
  (chatRun_toolpath reg cur o cfg msgs0 strm st0 fm hf hne).2

/-- Claim C2: tool-level faults are recovered locally: undecodable
arguments reduce to the same dispatch with empty arguments plus a parse
diagnostic; an unregistered name yields the unknown_tool error envelope
without touching the state; a raising implementation yields the error
envelope of its message; and in every case the turn still reaches the
final request. -/
theorem tool_fault_recovery (reg : Registry St) (tc : ToolCall) (st : St) :
    (∀ e, tc.args = Except.error e →
      dispatchOne reg tc st =
        ⟨Ev.toolDebugParse e :: (dispatchOne reg ⟨tc.id, tc.name, Except.ok []⟩ st).evs,
         (dispatchOne reg ⟨tc.id, tc.name, Except.ok []⟩ st).msg,
         (dispatchOne reg ⟨tc.id, tc.name, Except.ok []⟩ st).st⟩) ∧
    (reg tc.name = none →
      (dispatchOne reg tc st).msg =
        Msg.tool tc.id tc.name (Json.obj [("error", Json.str ("unknown_tool:" ++ tc.name))]) ∧
      (dispatchOne reg tc st).st = st) ∧
    (∀ f e st', reg tc.name = some f → f (decodedArgs tc) st = (Except.error e, st') →
      (dispatchOne reg tc st).msg = Msg.tool tc.id tc.name (Json.obj [("error", Json.str e)]) ∧
      (dispatchOne reg tc st).st = st') ∧
    (∀ (cur : St → String) (o : Oracle St) (cfg : Cfg) (msgs0 : List Msg) (strm : Bool)
       (fm : FirstMsg), o.first (firstReqOf cfg msgs0) = Except.ok fm → fm.toolCalls ≠ [] →
      (chatRun reg cur o none cfg msgs0 strm st).reqs.length = 2) := by
  refine ⟨?_, ?_, ?_, ?_⟩
  · obtain ⟨tid, tname, targs⟩ := tc
    intro e he
    simp only at he
    subst he
    rfl
  · intro hreg
    constructor <;> simp [dispatchOne, hreg]
  · intro f e st' hreg hfe
    constructor <;> simp [dispatchOne, hreg, hfe]
  · intro cur o cfg msgs0 strm fm hf hne
    rw [(chatRun_toolpath reg cur o cfg msgs0 strm st fm hf hne).2]
    rfl



/-- Witness for tool_turn_messages: one assistant message recording the
three demo calls, then one tool message per call, in order, carrying the
matching ids: the switch result, the unknown_tool envelope, the caught
raise. -/
theorem tool_turn_messages_witness :
    (chatRun demoReg id demoOracle none demoCfg [] false "m1").msgs =
      [Msg.assistant none demoCalls,
       Msg.tool "call1" "set_model" (Json.obj [("status", Json.str "ok"),
         ("old", Json.str "m1"), ("new", Json.str "m2")]),
       Msg.tool "call2" "nosuch" (Json.obj [("error", Json.str "unknown_tool:nosuch")]),
       Msg.tool "call3" "boom" (Json.obj [("error", Json.str "kaboom")])] := by
  rw [(tool_turn_messages demoReg id demoOracle demoCfg [] false "m1"
    ⟨none, demoCalls⟩ rfl (by simp [demoCalls])).1]
  rfl

/-- Witness for final_request_fresh_model: after the set_model dispatch
the final request names the switched-to model and carries no tools. -/
theorem final_request_fresh_model_witness :
    (chatRun demoReg id demoOracle none demoCfg [] false "m1").reqs =
      [⟨"m1", [], some mainToolNames, some "auto", false⟩,
       ⟨"m2", [Msg.assistant none demoCalls] ++ (dispatchAll demoReg demoCalls "m1").1,
        none, none, false⟩] := by
  rw [final_request_fresh_model demoReg id demoOracle demoCfg [] false "m1"
    ⟨none, demoCalls⟩ rfl (by simp [demoCalls])]
  rfl

/-- Witness for tool_fault_recovery: the unknown-tool envelope, the
caught-raise envelope, the parse-fault fallback, and the turn still
reaching the final request. -/
theorem tool_fault_recovery_witness :
    (dispatchOne demoReg ⟨"call2", "nosuch", Except.ok []⟩ "m1").msg =
      Msg.tool "call2" "nosuch" (Json.obj [("error", Json.str "unknown_tool:nosuch")]) ∧
    (dispatchOne demoReg ⟨"call3", "boom", Except.error "bad json"⟩ "m1").msg =
      Msg.tool "call3" "boom" (Json.obj [("error", Json.str "kaboom")]) ∧
    (dispatchOne demoReg ⟨"call3", "boom", Except.error "bad json"⟩ "m1").evs =
      Ev.toolDebugParse "bad json" ::
        (dispatchOne demoReg ⟨"call3", "boom", Except.ok []⟩ "m1").evs ∧
    (chatRun demoReg id demoOracle none demoCfg [] false "m1").reqs.length = 2 := by
  refine ⟨(tool_fault_recovery demoReg ⟨"call2", "nosuch", Except.ok []⟩ "m1").2.1 rfl |>.1,
    (tool_fault_recovery demoReg ⟨"call3", "boom", Except.error "bad json"⟩ "m1").2.2.1
      _ "kaboom" "m1" rfl rfl |>.1, ?_, ?_⟩
  · rw [(tool_fault_recovery demoReg ⟨"call3", "boom", Except.error "bad json"⟩ "m1").1
      "bad json" rfl]
  · exact (tool_fault_recovery demoReg ⟨"call1", "set_model",
      Except.ok [("model", Json.str "m2")]⟩ "m1").2.2.2 id demoOracle demoCfg [] false
      ⟨none, demoCalls⟩ rfl (by simp [demoCalls])

/-- Witness for abort_quiescence: under a schedule whose second read
observes abort, the turn still completes exactly once, the completion is
last, and no core signal is tagged past the bound. -/
theorem abort_quiescence_witness :
    finishedCount (chatRun demoReg id demoOracle (some 1) demoCfg [] true "m1").trace = 1 ∧
    lastFinished (chatRun demoReg id demoOracle (some 1) demoCfg [] true "m1").trace = some true ∧
    (chatRun demoReg id demoOracle (some 1) demoCfg [] true "m1").trace.countP
      (fun (p : Ev × Nat) => isCoreEv p.1 && decide (1 < p.2)) = 0 := by
  refine ⟨(abort_quiescence demoReg id demoOracle (some 1) demoCfg [] true "m1").1,
    (abort_quiescence demoReg id demoOracle (some 1) demoCfg [] true "m1").2.1, ?_⟩
  rw [List.countP_eq_zero]
  intro p hp
  have h := (abort_quiescence demoReg id demoOracle (some 1) demoCfg [] true "m1").2.2 1 rfl p hp
  simp only [Bool.and_eq_true, decide_eq_true_eq, not_and]
  intro hc
  have hb := h hc
  omega



/-- Claim C8: the source's fragment extractor equals the spec's priority
policy (first non-empty text among delta content, message content,
terminal text; nothing for a choiceless chunk), and a chunk yielding
nothing is skipped by the stream loop with no event, no buffered text,
and no error. -/
theorem fragment_extraction (ch : Chunk) :
    extractStreamPiece ch = specFragment ch ∧
    (∀ (rest : List Chunk) (k : Nat), extractStreamPiece ch = none →
      streamLoop none (ch :: rest) k = streamLoop none rest (k + 1)) := by
  constructor
  · unfold extractStreamPiece specFragment
    cases hc : ch.choices with
    | nil => rfl
    | cons c rest' =>
      obtain ⟨d, m, t⟩ := c
      rcases d with _ | (_ | sd) <;>
        rcases m with _ | (_ | sm) <;>
          rcases t with _ | st <;>
            simp [truthyAttr, optTruthy, firstNonemptyText, Option.join] <;>
              split_ifs <;>
                simp_all [firstNonemptyText]
  · intro rest k hnone
    simp only [streamLoop, rd, Bool.false_eq_true, if_false, hnone]




/-- Witness for fragment_extraction: a choiceless chunk is skipped. -/
theorem fragment_extraction_witness :
    extractStreamPiece ⟨[]⟩ = specFragment ⟨[]⟩ ∧
    streamLoop none [⟨[]⟩] 0 = streamLoop none [] 1 :=
  ⟨(fragment_extraction ⟨[]⟩).1, (fragment_extraction ⟨[]⟩).2 [] 0 rfl⟩

/-- The chunk loop delivers no result text. -/
theorem streamLoop_no_result (ab : Option Nat) (cs : List Chunk) (k : Nat) :
    resultTexts (streamLoop ab cs k).evs = [] := by
  rw [resultTexts, List.filterMap_eq_nil_iff]
  intro p hp
  obtain ⟨s, hs⟩ := streamLoop_evs_delta cs k p hp
  rw [hs]

/-- The chunk loop records no tool dispatch. -/
theorem streamLoop_no_toolcall (ab : Option Nat) (cs : List Chunk) (k : Nat) :
    toolCallCount (streamLoop ab cs k).evs = 0 := by
  rw [toolCallCount, List.countP_eq_zero]
  intro p hp
  obtain ⟨s, hs⟩ := streamLoop_evs_delta cs k p hp
  simp [hs, isToolCallEv]

/-- Claim C9: when the first response carries no tool calls and the
transport is consistent (the second streaming request delivers chunks
whose pieces concatenate to the first response's content, with no
trailing fault), the streaming and non-streaming runs deliver the same
single final answer text, and neither run dispatches any tool. -/
theorem stream_complete_agree (reg : Registry St) (cur : St → String) (o : Oracle St)
    (cfg : Cfg) (msgs0 : List Msg) (st0 : St) (fm : FirstMsg) (resp : StreamResp)
    (hf : o.first (firstReqOf cfg msgs0) = Except.ok fm)
    (hempty : fm.toolCalls = [])
    (hS : o.completeS ⟨cfg.model, msgs0, (if cfg.useTools then some mainToolNames else none),
            (if cfg.useTools then some "auto" else none), true⟩ = Except.ok resp)
    (hfault : resp.fault = none)
    (hcons : String.join (collectPieces resp.chunks) = fm.content.getD "") :
    resultTexts (chatRun reg cur o none cfg msgs0 true st0).trace =
      resultTexts (chatRun reg cur o none cfg msgs0 false st0).trace ∧
    resultTexts (chatRun reg cur o none cfg msgs0 false st0).trace =
      [pyStrip (fm.content.getD "")] ∧
    toolCallCount (chatRun reg cur o none cfg msgs0 true st0).trace = 0 ∧
    toolCallCount (chatRun reg cur o none cfg msgs0 false st0).trace = 0 := by
  have hempty' : fm.toolCalls.isEmpty = true := by rw [hempty]; rfl
  obtain ⟨hbuf, hbroke⟩ := streamLoop_none resp.chunks 2
  have hNS : (chatRun reg cur o none cfg msgs0 false st0).trace =
      [(Ev.resultEv (pyStrip (fm.content.getD "")), 2), (Ev.finished, 0)] := by
    unfold chatRun noToolsPhase
    simp only [hf, rd, Bool.false_eq_true, if_false, hempty', if_true]
    rfl
  have hST : (chatRun reg cur o none cfg msgs0 true st0).trace =
      ((Ev.streamStarted, 2) :: (streamLoop none resp.chunks 2).evs ++
        [(Ev.streamFinished, (streamLoop none resp.chunks 2).reads)]) ++
      [(Ev.resultEv (pyStrip (String.join (collectPieces resp.chunks))),
        (streamLoop none resp.chunks 2).reads + 1)] ++ [(Ev.finished, 0)] := by
    unfold chatRun noToolsPhase streamFinalAnswer
    simp only [hf, rd, Bool.false_eq_true, if_false, hempty', if_true, hS, hbroke, hfault,
      hbuf, List.append_assoc]
  rw [hNS, hST, hcons]
  refine ⟨?_, rfl, ?_, rfl⟩
  · simp only [resultTexts, List.filterMap_append, List.filterMap_cons]
    rw [← resultTexts, streamLoop_no_result]
    rfl
  · simp only [toolCallCount, List.countP_append, List.countP_cons]
    rw [← toolCallCount, streamLoop_no_toolcall]
    rfl


/-- Witness for stream_complete_agree: a one-chunk stream consistent
with the first response's text yields the same single result text in
both modes, with no tool dispatched. -/
theorem stream_complete_agree_witness :
    resultTexts (chatRun (fun _ => none) (fun _ => "m") quietOracle none ⟨"m", true⟩
      [] true ()).trace =
      resultTexts (chatRun (fun _ => none) (fun _ => "m") quietOracle none ⟨"m", true⟩
        [] false ()).trace ∧
    resultTexts (chatRun (fun _ => none) (fun _ => "m") quietOracle none ⟨"m", true⟩
      [] false ()).trace = ["hi"] ∧
    toolCallCount (chatRun (fun _ => none) (fun _ => "m") quietOracle none ⟨"m", true⟩
      [] true ()).trace = 0 := by
  have h := stream_complete_agree (fun _ => none) (fun _ => "m") quietOracle ⟨"m", true⟩
    [] () ⟨some "hi", []⟩ ⟨[⟨[⟨some (some "hi"), none, none⟩]⟩], none⟩ rfl rfl rfl rfl rfl
  exact ⟨h.1, h.2.1.trans rfl, h.2.2.1⟩

end AssistantStudio
